import Mathlib

/-!
Verification of the modal text-editor core in `src/main.rs`.

The editor state (`Editor`) holds a mode, a buffer of lines (`content`),
and a cursor (`cursor_x`, `cursor_y`).  Lines are lists of characters;
`String.insert/remove/truncate` on the Rust side become `take`/`drop`
surgery here.  `handle_keypress` is the per-keystroke transition function;
its `Bool` component is `true` exactly when the Rust code returns the
"Exit requested" error.
-/

namespace TextEditor

/-- The two input modes, from `enum Mode` in `main.rs`. -/
inductive Mode where
  | Normal : Mode
  | Insert : Mode
deriving DecidableEq, Repr

/-- Logical key identity, from `crossterm::event::KeyCode` as matched in
`main.rs` (`Other` stands for every key code the program never names). -/
inductive KeyCode where
  | Char : Char → KeyCode
  | Enter : KeyCode
  | Backspace : KeyCode
  | Esc : KeyCode
  | Left : KeyCode
  | Right : KeyCode
  | Up : KeyCode
  | Down : KeyCode
  | Other : KeyCode
deriving DecidableEq, Repr

/-- A key event: the key code plus whether the CONTROL modifier is held
(the only modifier the program inspects). -/
structure KeyEvent where
  code : KeyCode
  ctrl : Bool
deriving DecidableEq, Repr

/-- The editor state, from `struct Editor` in `main.rs` (the `filename`
and `terminal_size` fields only feed rendering and are omitted). -/
structure Editor where
  mode : Mode
  content : List (List Char)
  cursor_x : Nat
  cursor_y : Nat
deriving DecidableEq, Repr

/-- `Editor::new`: one empty line, cursor at (0,0), Normal mode. -/
def Editor.new : Editor :=
  { mode := Mode.Normal, content := [[]], cursor_x := 0, cursor_y := 0 }

/-- The line under the cursor (`self.content[self.cursor_y]`; in-bounds
whenever the cursor invariant holds, so the default is never consulted). -/
def Editor.curLine (e : Editor) : List Char :=
  e.content.getD e.cursor_y []

/-- `Editor::move_cursor_left`. -/
def Editor.move_cursor_left (e : Editor) : Editor :=
  if e.cursor_x > 0 then { e with cursor_x := e.cursor_x - 1 } else e

/-- `Editor::move_cursor_right`. -/
def Editor.move_cursor_right (e : Editor) : Editor :=
  if e.cursor_x < e.curLine.length then { e with cursor_x := e.cursor_x + 1 } else e

/-- `Editor::move_cursor_up`. -/
def Editor.move_cursor_up (e : Editor) : Editor :=
  if e.cursor_y > 0 then
    { e with cursor_y := e.cursor_y - 1,
             cursor_x := min e.cursor_x (e.content.getD (e.cursor_y - 1) []).length }
  else e

/-- `Editor::move_cursor_down`. -/
def Editor.move_cursor_down (e : Editor) : Editor :=
  if e.cursor_y < e.content.length - 1 then
    { e with cursor_y := e.cursor_y + 1,
             cursor_x := min e.cursor_x (e.content.getD (e.cursor_y + 1) []).length }
  else e

/-- `String::insert(x, c)` on a line: `c` goes in at index `x`, the tail
shifts right. -/
def lineInsert (l : List Char) (x : Nat) (c : Char) : List Char :=
  l.take x ++ c :: l.drop x

/-- `String::remove(i)` on a line: the character at index `i` disappears. -/
def lineRemove (l : List Char) (i : Nat) : List Char :=
  l.take i ++ l.drop (i + 1)

/-- `Editor::insert_char`. -/
def Editor.insert_char (e : Editor) (c : Char) : Editor :=
  { e with content := e.content.set e.cursor_y (lineInsert e.curLine e.cursor_x c),
           cursor_x := e.cursor_x + 1 }

/-- `Editor::insert_newline`: truncate line `y` to `x`, insert the tail as
a fresh line at `y+1`, move the cursor to `(y+1, 0)`. -/
def Editor.insert_newline (e : Editor) : Editor :=
  let y := e.cursor_y
  let x := e.cursor_x
  let rest := e.curLine.drop x
  let c1 := e.content.set y (e.curLine.take x)
  { e with content := c1.take (y + 1) ++ rest :: c1.drop (y + 1),
           cursor_y := y + 1,
           cursor_x := 0 }

/-- `Editor::handle_backspace`: delete before the cursor, or join the
current line into the previous one at a line start, or do nothing at the
document start. -/
def Editor.handle_backspace (e : Editor) : Editor :=
  if e.cursor_x > 0 then
    { e with content := e.content.set e.cursor_y (lineRemove e.curLine (e.cursor_x - 1)),
             cursor_x := e.cursor_x - 1 }
  else if e.cursor_y > 0 then
    let y := e.cursor_y
    let cur := e.content.getD y []
    let c1 := e.content.take y ++ e.content.drop (y + 1)
    let prevLen := (c1.getD (y - 1) []).length
    { e with content := c1.set (y - 1) ((c1.getD (y - 1) []) ++ cur),
             cursor_y := y - 1,
             cursor_x := prevLen }
  else e

/-- `Editor::handle_normal_mode`; the `Bool` is `true` when the Rust code
returns the "Exit requested" error. The `if` chain mirrors the ordered
match arms, including the guard on `Char('q')`. -/
def handle_normal_mode (e : Editor) (ev : KeyEvent) : Editor × Bool :=
  match ev.code with
  | KeyCode.Char c =>
      if c = 'i' then ({ e with mode := Mode.Insert }, false)
      else if c = 'h' then (e.move_cursor_left, false)
      else if c = 'j' then (e.move_cursor_down, false)
      else if c = 'k' then (e.move_cursor_up, false)
      else if c = 'l' then (e.move_cursor_right, false)
      else if c = 'q' ∧ ev.ctrl then (e, true)
      else (e, false)
  | _ => (e, false)

/-- `Editor::handle_insert_mode`: every `Char` key inserts, regardless of
modifiers; anything unnamed is ignored. -/
def handle_insert_mode (e : Editor) (ev : KeyEvent) : Editor × Bool :=
  match ev.code with
  | KeyCode.Esc => ({ e with mode := Mode.Normal }, false)
  | KeyCode.Char c => (e.insert_char c, false)
  | KeyCode.Enter => (e.insert_newline, false)
  | KeyCode.Backspace => (e.handle_backspace, false)
  | _ => (e, false)

/-- `Editor::handle_keypress`: dispatch on the current mode. -/
def handle_keypress (e : Editor) (ev : KeyEvent) : Editor × Bool :=
  match e.mode with
  | Mode.Normal => handle_normal_mode e ev
  | Mode.Insert => handle_insert_mode e ev

/-- States reachable from `Editor.new` by any sequence of keystrokes. -/
inductive Reachable : Editor → Prop where
  | init : Reachable Editor.new
  | step (e : Editor) (ev : KeyEvent) : Reachable e → Reachable (handle_keypress e ev).1

/-- Concrete state for spec scenario 3: buffer `["ab", "cd"]`, cursor
`(1,0)`, Insert mode. -/
def sampleTwoLines : Editor :=
  { mode := Mode.Insert, content := [['a', 'b'], ['c', 'd']], cursor_x := 0, cursor_y := 1 }

/-- Concrete state for spec scenario 2: buffer `["hi"]`, cursor `(0,2)`,
Insert mode. -/
def sampleHi : Editor :=
  { mode := Mode.Insert, content := [['h', 'i']], cursor_x := 2, cursor_y := 0 }

/-- Concrete state: buffer `["abc"]`, cursor `(0,1)`, Insert mode. -/
def sampleAbc : Editor :=
  { mode := Mode.Insert, content := [['a', 'b', 'c']], cursor_x := 1, cursor_y := 0 }

/-- Concrete state: buffer `["ab"]`, cursor `(0,1)`, Normal mode. -/
def sampleNormal : Editor :=
  { mode := Mode.Normal, content := [['a', 'b']], cursor_x := 1, cursor_y := 0 }

/-- The state reached from `Editor.new` by pressing `i` and then typing
`h`, `i` (spec scenario 1). -/
def scenarioHi : Editor :=
  (handle_keypress
    (handle_keypress
      (handle_keypress Editor.new ⟨KeyCode.Char 'i', false⟩).1
      ⟨KeyCode.Char 'h', false⟩).1
    ⟨KeyCode.Char 'i', false⟩).1

/-- The cursor/buffer well-formedness invariant of the spec: the buffer is
nonempty, the cursor row indexes a line, and the column is at most that
line's length. -/
def Invariant (e : Editor) : Prop :=
  0 < e.content.length ∧
  e.cursor_y < e.content.length ∧
  e.cursor_x ≤ e.curLine.length

/-- `getD` after `set` at the same in-bounds index returns the new value. -/
theorem getD_set_self {α : Type} (l : List α) (n : Nat) (a d : α) (h : n < l.length) :
    (l.set n a).getD n d = a := by
  induction l generalizing n with
  | nil => simp at h
  | cons x xs ih =>
      cases n with
      | zero => rfl
      | succ m => exact ih m (Nat.lt_of_succ_lt_succ h)

/-- `getD` after `set` at a different index is unchanged. -/
theorem getD_set_ne {α : Type} (l : List α) (m n : Nat) (a d : α) (h : m ≠ n) :
    (l.set m a).getD n d = l.getD n d := by
  induction l generalizing m n with
  | nil => rfl
  | cons x xs ih =>
      cases m with
      | zero =>
          cases n with
          | zero => exact absurd rfl h
          | succ k => rfl
      | succ j =>
          cases n with
          | zero => rfl
          | succ k => exact ih j k fun hc => h (by rw [hc])

/-- `getD` on an append, index inside the left part. -/
theorem getD_append_left {α : Type} (A B : List α) (n : Nat) (d : α) (h : n < A.length) :
    (A ++ B).getD n d = A.getD n d := by
  induction A generalizing n with
  | nil => simp at h
  | cons x xs ih =>
      cases n with
      | zero => rfl
      | succ m => exact ih m (Nat.lt_of_succ_lt_succ h)

/-- `getD` at the seam of `A ++ b :: B` is `b`. -/
theorem getD_append_length {α : Type} (A : List α) (b : α) (B : List α) (d : α) :
    (A ++ b :: B).getD A.length d = b := by
  induction A with
  | nil => rfl
  | cons x xs ih => exact ih

/-- `getD` of a longer take agrees with `getD` of the list. -/
theorem getD_take_of_lt {α : Type} (l : List α) (m n : Nat) (d : α) (h : m < n) :
    (l.take n).getD m d = l.getD m d := by
  induction l generalizing m n with
  | nil => simp
  | cons x xs ih =>
      cases n with
      | zero => simp at h
      | succ k =>
          cases m with
          | zero => rfl
          | succ j => exact ih j k (Nat.lt_of_succ_lt_succ h)

/-- Dropping past the distinguished element of `A ++ b :: B`. -/
theorem drop_append_cons_succ {α : Type} (A : List α) (b : α) (B : List α) :
    (A ++ b :: B).drop (A.length + 1) = B := by
  induction A with
  | nil => rfl
  | cons x xs ih => exact ih

/-- Taking through the distinguished element of `A ++ b :: B`. -/
theorem take_append_cons_succ {α : Type} (A : List α) (b : α) (B : List α) :
    (A ++ b :: B).take (A.length + 1) = A ++ [b] := by
  induction A with
  | nil => rfl
  | cons x xs ih => simpa using ih

/-- In-bounds `set` written as take/element/drop surgery. -/
theorem set_eq_take_cons_drop {α : Type} (l : List α) (n : Nat) (a : α) (h : n < l.length) :
    l.set n a = l.take n ++ a :: l.drop (n + 1) := by
  induction l generalizing n with
  | nil => simp at h
  | cons x xs ih =>
      cases n with
      | zero => rfl
      | succ m => simpa using ih m (Nat.lt_of_succ_lt_succ h)

/-- Setting an in-bounds index to the value already there is the identity. -/
theorem set_getD_self {α : Type} (l : List α) (n : Nat) (d : α) (h : n < l.length) :
    l.set n (l.getD n d) = l := by
  induction l generalizing n with
  | nil => rfl
  | cons x xs ih =>
      cases n with
      | zero => rfl
      | succ m => simpa using ih m (Nat.lt_of_succ_lt_succ h)

/-- `set` inside the left part of an append. -/
theorem set_append_left_of_lt {α : Type} (A B : List α) (n : Nat) (a : α) (h : n < A.length) :
    (A ++ B).set n a = A.set n a ++ B := by
  induction A generalizing n with
  | nil => simp at h
  | cons x xs ih =>
      cases n with
      | zero => rfl
      | succ m => simpa using ih m (Nat.lt_of_succ_lt_succ h)

/-- `getD` at the seam, index given by a length equation. -/
theorem getD_append_at {α : Type} (A : List α) (b : α) (B : List α) (d : α) (n : Nat)
    (h : A.length = n) : (A ++ b :: B).getD n d = b := by
  subst h
  exact getD_append_length A b B d

/-- Take up to the seam, index given by a length equation. -/
theorem take_append_at {α : Type} (A B : List α) (n : Nat) (h : A.length = n) :
    (A ++ B).take n = A := by
  subst h
  exact List.take_left A B

/-- Drop past the seam, index given by a length equation. -/
theorem drop_append_at {α : Type} (A : List α) (b : α) (B : List α) (n : Nat)
    (h : A.length = n) : (A ++ b :: B).drop (n + 1) = B := by
  subst h
  exact drop_append_cons_succ A b B

/-- Two editor states agree when all four fields agree. -/
theorem Editor.ext_of (a b : Editor) (h1 : a.mode = b.mode) (h2 : a.content = b.content)
    (h3 : a.cursor_x = b.cursor_x) (h4 : a.cursor_y = b.cursor_y) : a = b := by
  cases a
  cases b
  simp_all

/-- Inserting into a line grows it by one character. -/
theorem length_lineInsert (l : List Char) (x : Nat) (c : Char) :
    (lineInsert l x c).length = min x l.length + 1 + (l.length - x) := by
  simp [lineInsert]
  omega

/-- Removing from a line shrinks it by one character (in-bounds case). -/
theorem length_lineRemove (l : List Char) (i : Nat) (h : i < l.length) :
    (lineRemove l i).length = l.length - 1 := by
  simp [lineRemove]
  omega

theorem invariant_move_cursor_left (e : Editor) (h : Invariant e) :
    Invariant e.move_cursor_left := by
  obtain ⟨h1, h2, h3⟩ := h
  unfold Editor.move_cursor_left
  split_ifs with hc
  · exact ⟨h1, h2, Nat.le_trans (Nat.sub_le _ _) h3⟩
  · exact ⟨h1, h2, h3⟩

theorem invariant_move_cursor_right (e : Editor) (h : Invariant e) :
    Invariant e.move_cursor_right := by
  obtain ⟨h1, h2, h3⟩ := h
  unfold Editor.move_cursor_right
  split_ifs with hc
  · exact ⟨h1, h2, hc⟩
  · exact ⟨h1, h2, h3⟩

theorem invariant_move_cursor_up (e : Editor) (h : Invariant e) :
    Invariant e.move_cursor_up := by
  obtain ⟨h1, h2, h3⟩ := h
  unfold Editor.move_cursor_up
  split_ifs with hc
  · exact ⟨h1, Nat.lt_of_le_of_lt (Nat.sub_le _ _) h2, Nat.min_le_right _ _⟩
  · exact ⟨h1, h2, h3⟩

theorem invariant_move_cursor_down (e : Editor) (h : Invariant e) :
    Invariant e.move_cursor_down := by
  obtain ⟨h1, h2, h3⟩ := h
  unfold Editor.move_cursor_down
  split_ifs with hc
  · refine ⟨h1, ?_, Nat.min_le_right _ _⟩
    show e.cursor_y + 1 < e.content.length
    omega
  · exact ⟨h1, h2, h3⟩

theorem invariant_insert_char (e : Editor) (c : Char) (h : Invariant e) :
    Invariant (e.insert_char c) := by
  obtain ⟨h1, h2, h3⟩ := h
  have hl : (e.insert_char c).curLine = lineInsert e.curLine e.cursor_x c :=
    getD_set_self _ _ _ _ h2
  refine ⟨?_, ?_, ?_⟩
  · simpa [Editor.insert_char] using h1
  · simpa [Editor.insert_char] using h2
  · show e.cursor_x + 1 ≤ (e.insert_char c).curLine.length
    rw [hl, length_lineInsert]
    omega

theorem invariant_insert_newline (e : Editor) (h : Invariant e) :
    Invariant e.insert_newline := by
  obtain ⟨h1, h2, h3⟩ := h
  have hlen : e.insert_newline.content.length = e.content.length + 1 := by
    simp [Editor.insert_newline]
    omega
  refine ⟨?_, ?_, ?_⟩
  · omega
  · show e.cursor_y + 1 < e.insert_newline.content.length
    omega
  · exact Nat.zero_le _

theorem invariant_handle_backspace (e : Editor) (h : Invariant e) :
    Invariant e.handle_backspace := by
  obtain ⟨h1, h2, h3⟩ := h
  unfold Editor.handle_backspace
  split_ifs with hx hy
  · have hl : (e.content.set e.cursor_y (lineRemove e.curLine (e.cursor_x - 1))).getD
        e.cursor_y [] = lineRemove e.curLine (e.cursor_x - 1) :=
      getD_set_self _ _ _ _ h2
    refine ⟨by simpa using h1, by simpa using h2, ?_⟩
    have hgoal : e.cursor_x - 1 ≤
        ((e.content.set e.cursor_y (lineRemove e.curLine (e.cursor_x - 1))).getD
          e.cursor_y []).length := by
      rw [hl, length_lineRemove _ _ (by omega)]
      omega
    exact hgoal
  · have hlen1 : (e.content.take e.cursor_y ++ e.content.drop (e.cursor_y + 1)).length
        = e.content.length - 1 := by
      simp
      omega
    have hyy : e.cursor_y - 1 <
        (e.content.take e.cursor_y ++ e.content.drop (e.cursor_y + 1)).length := by
      omega
    refine ⟨?_, ?_, ?_⟩
    · show 0 < (List.set _ _ _).length
      rw [List.length_set]
      omega
    · show e.cursor_y - 1 < (List.set _ _ _).length
      rw [List.length_set]
      omega
    · have hgoal : ((e.content.take e.cursor_y ++ e.content.drop (e.cursor_y + 1)).getD
          (e.cursor_y - 1) []).length ≤
          (((e.content.take e.cursor_y ++ e.content.drop (e.cursor_y + 1)).set (e.cursor_y - 1)
            ((e.content.take e.cursor_y ++ e.content.drop (e.cursor_y + 1)).getD (e.cursor_y - 1)
              [] ++ e.content.getD e.cursor_y [])).getD (e.cursor_y - 1) []).length := by
        rw [getD_set_self _ _ _ _ hyy]
        simp
      exact hgoal
  · exact ⟨h1, h2, h3⟩

theorem invariant_handle_normal (e : Editor) (ev : KeyEvent) (h : Invariant e) :
    Invariant (handle_normal_mode e ev).1 := by
  obtain ⟨code, ctrl⟩ := ev
  cases code with
  | Char c =>
      simp only [handle_normal_mode]
      split_ifs <;>
        first
        | exact h
        | exact invariant_move_cursor_left e h
        | exact invariant_move_cursor_down e h
        | exact invariant_move_cursor_up e h
        | exact invariant_move_cursor_right e h
  | Enter => exact h
  | Backspace => exact h
  | Esc => exact h
  | Left => exact h
  | Right => exact h
  | Up => exact h
  | Down => exact h
  | Other => exact h

theorem invariant_handle_insert (e : Editor) (ev : KeyEvent) (h : Invariant e) :
    Invariant (handle_insert_mode e ev).1 := by
  obtain ⟨code, ctrl⟩ := ev
  cases code with
  | Char c => exact invariant_insert_char e c h
  | Enter => exact invariant_insert_newline e h
  | Backspace => exact invariant_handle_backspace e h
  | Esc => exact h
  | Left => exact h
  | Right => exact h
  | Up => exact h
  | Down => exact h
  | Other => exact h

theorem invariant_handle_keypress (e : Editor) (ev : KeyEvent) (h : Invariant e) :
    Invariant (handle_keypress e ev).1 := by
  unfold handle_keypress
  cases hm : e.mode
  · exact invariant_handle_normal e ev h
  · exact invariant_handle_insert e ev h

theorem invariant_new : Invariant Editor.new :=
  ⟨by decide, by decide, by decide⟩

theorem invariant_reachable (e : Editor) (h : Reachable e) : Invariant e := by
  induction h with
  | init => exact invariant_new
  | step e ev hr ih => exact invariant_handle_keypress e ev ih

/-- C1: every state reachable from the initial session state (buffer
`[""]`, cursor `(0,0)`, mode Normal) by any sequence of `handle_keypress`
calls keeps the cursor in bounds: the row indexes an existing line and the
column is at most that line's length. -/
theorem cursor_in_bounds_of_reachable (e : Editor) (h : Reachable e) :
    e.cursor_y < e.content.length ∧ e.cursor_x ≤ e.curLine.length :=
  ⟨(invariant_reachable e h).2.1, (invariant_reachable e h).2.2⟩

/-- Witness for C1: the state reached by pressing `i` then `x` is concrete
and satisfies the cursor bounds. -/
theorem cursor_in_bounds_of_reachable_witness :
    (handle_keypress (handle_keypress Editor.new ⟨KeyCode.Char 'i', false⟩).1
        ⟨KeyCode.Char 'x', false⟩).1.cursor_y <
      (handle_keypress (handle_keypress Editor.new ⟨KeyCode.Char 'i', false⟩).1
        ⟨KeyCode.Char 'x', false⟩).1.content.length ∧
    (handle_keypress (handle_keypress Editor.new ⟨KeyCode.Char 'i', false⟩).1
        ⟨KeyCode.Char 'x', false⟩).1.cursor_x ≤
      (handle_keypress (handle_keypress Editor.new ⟨KeyCode.Char 'i', false⟩).1
        ⟨KeyCode.Char 'x', false⟩).1.curLine.length :=
  cursor_in_bounds_of_reachable _
    (Reachable.step _ _ (Reachable.step _ _ Reachable.init))

/-- C2: every state reachable from the initial session state has a
nonempty buffer: no sequence of keystrokes ever removes the last line. -/
theorem buffer_nonempty_of_reachable (e : Editor) (h : Reachable e) :
    1 ≤ e.content.length :=
  (invariant_reachable e h).1

/-- Witness for C2: the state reached by pressing `i` then Backspace is
concrete and keeps at least one line. -/
theorem buffer_nonempty_of_reachable_witness :
    1 ≤ (handle_keypress (handle_keypress Editor.new ⟨KeyCode.Char 'i', false⟩).1
        ⟨KeyCode.Backspace, false⟩).1.content.length :=
  buffer_nonempty_of_reachable _
    (Reachable.step _ _ (Reachable.step _ _ Reachable.init))

/-- C3: Backspace in Insert mode follows its three cases.  With `col > 0`
the character at `col-1` of the current line is removed and the cursor
column retreats by one; with `col = 0` on a later row, row `row` is
removed and appended to row `row-1` and the cursor lands at the join
point; at `(0,0)` nothing changes. -/
theorem backspace_insert_mode_cases (e : Editor) (m : Bool)
    (hm : e.mode = Mode.Insert)
    (hy : e.cursor_y < e.content.length) :
    ((handle_keypress e ⟨KeyCode.Backspace, m⟩).1 = e.handle_backspace) ∧
    (0 < e.cursor_x →
      e.handle_backspace.content =
        e.content.set e.cursor_y
          (e.curLine.take (e.cursor_x - 1) ++ e.curLine.drop e.cursor_x) ∧
      e.handle_backspace.cursor_x = e.cursor_x - 1 ∧
      e.handle_backspace.cursor_y = e.cursor_y ∧
      e.handle_backspace.mode = Mode.Insert) ∧
    (e.cursor_x = 0 → 0 < e.cursor_y →
      e.handle_backspace.content =
        e.content.take (e.cursor_y - 1) ++
          (e.content.getD (e.cursor_y - 1) [] ++ e.content.getD e.cursor_y []) ::
            e.content.drop (e.cursor_y + 1) ∧
      e.handle_backspace.cursor_y = e.cursor_y - 1 ∧
      e.handle_backspace.cursor_x = (e.content.getD (e.cursor_y - 1) []).length ∧
      e.handle_backspace.mode = Mode.Insert) ∧
    (e.cursor_x = 0 → e.cursor_y = 0 → e.handle_backspace = e) := by
  have hk : (handle_keypress e ⟨KeyCode.Backspace, m⟩).1 = e.handle_backspace := by
    simp [handle_keypress, hm, handle_insert_mode]
  refine ⟨hk, ?_, ?_, ?_⟩
  · intro hx0
    unfold Editor.handle_backspace
    rw [if_pos hx0]
    refine ⟨?_, rfl, rfl, hm⟩
    show e.content.set e.cursor_y (lineRemove e.curLine (e.cursor_x - 1)) = _
    simp only [lineRemove]
    rw [Nat.sub_add_cancel hx0]
  · intro hx0 hy0
    have htakeLen : (e.content.take e.cursor_y).length = e.cursor_y := by
      simp
      omega
    have hlt : e.cursor_y - 1 < (e.content.take e.cursor_y).length := by
      rw [htakeLen]
      omega
    have h1 : (e.content.take e.cursor_y ++ e.content.drop (e.cursor_y + 1)).getD
        (e.cursor_y - 1) [] = e.content.getD (e.cursor_y - 1) [] := by
      rw [getD_append_left _ _ _ _ hlt, getD_take_of_lt _ _ _ _ (by omega)]
    unfold Editor.handle_backspace
    rw [if_neg (by omega), if_pos hy0]
    refine ⟨?_, rfl, ?_, hm⟩
    · show (e.content.take e.cursor_y ++ e.content.drop (e.cursor_y + 1)).set (e.cursor_y - 1)
        (((e.content.take e.cursor_y ++ e.content.drop (e.cursor_y + 1)).getD (e.cursor_y - 1) [])
          ++ e.content.getD e.cursor_y []) = _
      rw [h1, set_append_left_of_lt _ _ _ _ hlt,
        set_eq_take_cons_drop _ _ _ hlt, List.take_take]
      rw [min_eq_left (by omega : e.cursor_y - 1 ≤ e.cursor_y)]
      rw [show e.cursor_y - 1 + 1 = e.cursor_y from by omega]
      rw [List.drop_eq_nil_of_le (by rw [htakeLen])]
      simp
    · show ((e.content.take e.cursor_y ++ e.content.drop (e.cursor_y + 1)).getD
          (e.cursor_y - 1) []).length = _
      rw [h1]
  · intro hx0 hy0
    unfold Editor.handle_backspace
    rw [if_neg (by omega), if_neg (by omega)]

/-- Witness for C3 at spec scenario 3: buffer `["ab","cd"]`, cursor
`(1,0)`, Backspace joins the lines into `["abcd"]` with cursor `(0,2)`. -/
theorem backspace_insert_mode_cases_witness :
    (handle_keypress sampleTwoLines ⟨KeyCode.Backspace, false⟩).1 =
        sampleTwoLines.handle_backspace ∧
      sampleTwoLines.handle_backspace.content = [['a', 'b', 'c', 'd']] ∧
      sampleTwoLines.handle_backspace.cursor_y = 0 ∧
      sampleTwoLines.handle_backspace.cursor_x = 2 ∧
      sampleTwoLines.handle_backspace.mode = Mode.Insert := by
  have h := backspace_insert_mode_cases sampleTwoLines false rfl (by decide)
  exact ⟨h.1, h.2.2.1 rfl (by decide)⟩

/-- C4: Enter in Insert mode splits the current line at the cursor: row
`row` keeps the first `col` characters, the remainder becomes a fresh line
right after it, the buffer grows by exactly one line, and the cursor moves
to `(row+1, 0)`. -/
theorem enter_splits_line (e : Editor) (m : Bool)
    (hm : e.mode = Mode.Insert)
    (hy : e.cursor_y < e.content.length) :
    (handle_keypress e ⟨KeyCode.Enter, m⟩).1 = e.insert_newline ∧
    e.insert_newline.content =
      e.content.take e.cursor_y ++
        e.curLine.take e.cursor_x :: e.curLine.drop e.cursor_x ::
          e.content.drop (e.cursor_y + 1) ∧
    e.insert_newline.content.length = e.content.length + 1 ∧
    e.insert_newline.cursor_y = e.cursor_y + 1 ∧
    e.insert_newline.cursor_x = 0 ∧
    e.insert_newline.mode = Mode.Insert := by
  have hk : (handle_keypress e ⟨KeyCode.Enter, m⟩).1 = e.insert_newline := by
    simp [handle_keypress, hm, handle_insert_mode]
  have htakeLen : (e.content.take e.cursor_y).length = e.cursor_y := by
    simp
    omega
  have hc1 : e.content.set e.cursor_y (e.curLine.take e.cursor_x) =
      e.content.take e.cursor_y ++
        e.curLine.take e.cursor_x :: e.content.drop (e.cursor_y + 1) :=
    set_eq_take_cons_drop _ _ _ hy
  have hcontent : e.insert_newline.content =
      e.content.take e.cursor_y ++
        e.curLine.take e.cursor_x :: e.curLine.drop e.cursor_x ::
          e.content.drop (e.cursor_y + 1) := by
    show (e.content.set e.cursor_y (e.curLine.take e.cursor_x)).take (e.cursor_y + 1) ++
        e.curLine.drop e.cursor_x ::
          (e.content.set e.cursor_y (e.curLine.take e.cursor_x)).drop (e.cursor_y + 1) = _
    rw [hc1, show e.cursor_y + 1 = (e.content.take e.cursor_y).length + 1 from by
      rw [htakeLen]]
    rw [take_append_cons_succ, drop_append_cons_succ]
    simp
  refine ⟨hk, hcontent, ?_, rfl, rfl, hm⟩
  rw [hcontent]
  simp
  omega

/-- Witness for C4 at spec scenario 2: buffer `["hi"]`, cursor `(0,2)`,
Enter yields `["hi", ""]` with cursor `(1,0)`. -/
theorem enter_splits_line_witness :
    (handle_keypress sampleHi ⟨KeyCode.Enter, false⟩).1 = sampleHi.insert_newline ∧
      sampleHi.insert_newline.content = [['h', 'i'], []] ∧
      sampleHi.insert_newline.content.length = 2 ∧
      sampleHi.insert_newline.cursor_y = 1 ∧
      sampleHi.insert_newline.cursor_x = 0 ∧
      sampleHi.insert_newline.mode = Mode.Insert := by
  have h := enter_splits_line sampleHi false rfl (by decide)
  refine ⟨h.1, ?_, h.2.2.1, h.2.2.2.1, h.2.2.2.2.1, h.2.2.2.2.2⟩
  rw [h.2.1]
  decide

/-- C5: a `Char c` key in Insert mode inserts `c` at the cursor column of
the current line (shifting the tail right), advances the column by one,
leaves every other line and the line count unchanged, and stays in Insert
mode; and from the initial state, `i` followed by typing `h`, `i` gives
buffer `["hi"]`, cursor `(0,2)`, Insert mode. -/
theorem char_insert_advances (e : Editor) (c : Char) (m : Bool)
    (hm : e.mode = Mode.Insert)
    (hy : e.cursor_y < e.content.length) :
    ((handle_keypress e ⟨KeyCode.Char c, m⟩).1 = e.insert_char c ∧
      (e.insert_char c).curLine =
        e.curLine.take e.cursor_x ++ c :: e.curLine.drop e.cursor_x ∧
      (∀ i, i ≠ e.cursor_y →
        (e.insert_char c).content.getD i [] = e.content.getD i []) ∧
      (e.insert_char c).content.length = e.content.length ∧
      (e.insert_char c).cursor_y = e.cursor_y ∧
      (e.insert_char c).cursor_x = e.cursor_x + 1 ∧
      (e.insert_char c).mode = Mode.Insert) ∧
    (scenarioHi.content = [['h', 'i']] ∧ scenarioHi.cursor_y = 0 ∧
      scenarioHi.cursor_x = 2 ∧ scenarioHi.mode = Mode.Insert) := by
  have hk : (handle_keypress e ⟨KeyCode.Char c, m⟩).1 = e.insert_char c := by
    simp [handle_keypress, hm, handle_insert_mode]
  refine ⟨⟨hk, ?_, ?_, by simp [Editor.insert_char], rfl, rfl, hm⟩, by decide⟩
  · exact getD_set_self _ _ _ _ hy
  · intro i hi
    exact getD_set_ne _ _ _ _ _ fun hc => hi hc.symm

/-- Witness for C5: inserting `z` into `["abc"]` at column 1 gives line
`"azbc"` and column 2. -/
theorem char_insert_advances_witness :
    (handle_keypress sampleAbc ⟨KeyCode.Char 'z', false⟩).1 = sampleAbc.insert_char 'z' ∧
      (sampleAbc.insert_char 'z').curLine = ['a', 'z', 'b', 'c'] ∧
      (sampleAbc.insert_char 'z').cursor_x = 2 := by
  have h := char_insert_advances sampleAbc 'z' false rfl (by decide)
  refine ⟨h.1.1, ?_, h.1.2.2.2.2.2.1⟩
  rw [h.1.2.1]
  decide

/-- C6: each cursor move is a no-op at its boundary: `move_cursor_left`
at column 0, `move_cursor_right` at end of line, `move_cursor_up` at row
0, and `move_cursor_down` at the last row each leave the whole state
unchanged (no wrapping to an adjacent line). -/
theorem clamped_moves_identity (e : Editor) :
    (e.cursor_x = 0 → e.move_cursor_left = e) ∧
    (e.cursor_x = e.curLine.length → e.move_cursor_right = e) ∧
    (e.cursor_y = 0 → e.move_cursor_up = e) ∧
    (e.cursor_y = e.content.length - 1 → e.move_cursor_down = e) := by
  refine ⟨fun h => ?_, fun h => ?_, fun h => ?_, fun h => ?_⟩
  · unfold Editor.move_cursor_left
    rw [if_neg (by omega)]
  · unfold Editor.move_cursor_right
    rw [if_neg (by omega)]
  · unfold Editor.move_cursor_up
    rw [if_neg (by omega)]
  · unfold Editor.move_cursor_down
    rw [if_neg (by omega)]

/-- Witness for C6: on buffer `["ab"]` with cursor `(0,1)` in Normal
mode, `move_cursor_up` at row 0 changes nothing. -/
theorem clamped_moves_identity_witness :
    sampleNormal.move_cursor_up = sampleNormal :=
  (clamped_moves_identity sampleNormal).2.2.1 rfl

/-- C7: in Insert mode, pressing Enter at a valid cursor `(r, c)` and then
Backspace at the start of the freshly created row restores the original
state exactly: merged buffer content, cursor back at `(r, c)`, mode still
Insert. -/
theorem split_then_backspace_id (e : Editor) (m1 m2 : Bool)
    (hm : e.mode = Mode.Insert)
    (hy : e.cursor_y < e.content.length)
    (hx : e.cursor_x ≤ e.curLine.length) :
    (handle_keypress (handle_keypress e ⟨KeyCode.Enter, m1⟩).1
      ⟨KeyCode.Backspace, m2⟩).1 = e := by
  obtain ⟨mo, content, x, y⟩ := e
  replace hm : mo = Mode.Insert := hm
  replace hy : y < content.length := hy
  replace hx : x ≤ (content.getD y []).length := hx
  subst hm
  show (handle_keypress (Editor.mk Mode.Insert
      ((content.set y ((content.getD y []).take x)).take (y + 1) ++
        (content.getD y []).drop x ::
          (content.set y ((content.getD y []).take x)).drop (y + 1))
      0 (y + 1)) ⟨KeyCode.Backspace, m2⟩).1 = Editor.mk Mode.Insert content x y
  set C2 := (content.set y ((content.getD y []).take x)).take (y + 1) ++
      (content.getD y []).drop x ::
        (content.set y ((content.getD y []).take x)).drop (y + 1) with hC2
  have hA : ((content.set y ((content.getD y []).take x)).take (y + 1)).length = y + 1 := by
    simp
    omega
  have h3 : C2.take (y + 1) = (content.set y ((content.getD y []).take x)).take (y + 1) := by
    rw [hC2]
    exact take_append_at _ _ _ hA
  have h4 : C2.drop (y + 1 + 1) =
      (content.set y ((content.getD y []).take x)).drop (y + 1) := by
    rw [hC2]
    exact drop_append_at _ _ _ _ hA
  have hcur : C2.getD (y + 1) [] = (content.getD y []).drop x := by
    rw [hC2]
    exact getD_append_at _ _ _ _ _ hA
  have h5 : C2.take (y + 1) ++ C2.drop (y + 1 + 1) =
      content.set y ((content.getD y []).take x) := by
    rw [h3, h4]
    exact List.take_append_drop _ _
  show (Editor.mk Mode.Insert C2 0 (y + 1)).handle_backspace
    = Editor.mk Mode.Insert content x y
  unfold Editor.handle_backspace
  rw [if_neg (Nat.lt_irrefl 0), if_pos (Nat.succ_pos y)]
  refine Editor.ext_of _ _ rfl ?_ ?_ rfl
  · show (C2.take (y + 1) ++ C2.drop (y + 1 + 1)).set y
        ((C2.take (y + 1) ++ C2.drop (y + 1 + 1)).getD y [] ++ C2.getD (y + 1) []) = content
    rw [h5, hcur, getD_set_self _ _ _ _ hy, List.set_set, List.take_append_drop]
    exact set_getD_self _ _ _ hy
  · show ((C2.take (y + 1) ++ C2.drop (y + 1 + 1)).getD y []).length = x
    rw [h5, getD_set_self _ _ _ _ hy, List.length_take]
    omega

/-- Witness for C7: on buffer `["abc"]`, cursor `(0,1)`, Insert mode,
Enter then Backspace restores the state exactly. -/
theorem split_then_backspace_id_witness :
    (handle_keypress (handle_keypress sampleAbc ⟨KeyCode.Enter, false⟩).1
      ⟨KeyCode.Backspace, false⟩).1 = sampleAbc :=
  split_then_backspace_id sampleAbc false false rfl (by decide) (by decide)

/-- C8 counterexample: in Normal mode on buffer `["ab"]` with cursor
`(0,1)`, a Left arrow event leaves the state unchanged instead of acting
like `h` (which would move the cursor to column 0): arrow keys are not
handled by the code. -/
theorem arrow_key_not_like_h_counterexample :
    (handle_keypress sampleNormal ⟨KeyCode.Left, false⟩).1 ≠
        sampleNormal.move_cursor_left ∧
      (handle_keypress sampleNormal ⟨KeyCode.Left, false⟩).1 = sampleNormal := by
  decide

/-- C8 amended: arrow-key events (Left, Right, Up, Down) are ignored in
both modes — `handle_keypress` returns the state unchanged with no quit
signal — while in Normal mode the `h`/`j`/`k`/`l` characters perform the
clamped directional moves. -/
theorem arrow_keys_ignored (e : Editor) (ev : KeyEvent)
    (harrow : ev.code = KeyCode.Left ∨ ev.code = KeyCode.Right ∨
      ev.code = KeyCode.Up ∨ ev.code = KeyCode.Down) :
    handle_keypress e ev = (e, false) ∧
    (e.mode = Mode.Normal →
      handle_keypress e ⟨KeyCode.Char 'h', false⟩ = (e.move_cursor_left, false) ∧
      handle_keypress e ⟨KeyCode.Char 'j', false⟩ = (e.move_cursor_down, false) ∧
      handle_keypress e ⟨KeyCode.Char 'k', false⟩ = (e.move_cursor_up, false) ∧
      handle_keypress e ⟨KeyCode.Char 'l', false⟩ = (e.move_cursor_right, false)) := by
  obtain ⟨mo, content, x, y⟩ := e
  obtain ⟨code, ctrl⟩ := ev
  replace harrow : code = KeyCode.Left ∨ code = KeyCode.Right ∨
      code = KeyCode.Up ∨ code = KeyCode.Down := harrow
  constructor
  · cases mo <;> rcases harrow with h | h | h | h <;> subst h <;> rfl
  · intro hm
    replace hm : mo = Mode.Normal := hm
    subst hm
    exact ⟨rfl, rfl, rfl, rfl⟩

/-- Witness for C8 amended: an Up arrow in the Insert-mode state with
buffer `["hi"]` and cursor `(0,2)` changes nothing and does not quit. -/
theorem arrow_keys_ignored_witness :
    handle_keypress sampleHi ⟨KeyCode.Up, false⟩ = (sampleHi, false) :=
  (arrow_keys_ignored sampleHi ⟨KeyCode.Up, false⟩ (Or.inr (Or.inr (Or.inl rfl)))).1

/-- C9: no key event processed in Insert mode ever yields the quit
signal; in particular Ctrl+`q` in Insert mode is treated as the printable
character `q` and inserted at the cursor. -/
theorem insert_mode_never_quits (e : Editor) (ev : KeyEvent)
    (hm : e.mode = Mode.Insert) :
    (handle_keypress e ev).2 = false ∧
    (handle_keypress e ⟨KeyCode.Char 'q', true⟩).1 = e.insert_char 'q' := by
  obtain ⟨mo, content, x, y⟩ := e
  replace hm : mo = Mode.Insert := hm
  subst hm
  constructor
  · obtain ⟨code, ctrl⟩ := ev
    cases code <;> rfl
  · rfl

/-- Witness for C9: Ctrl+`q` on buffer `["abc"]`, cursor `(0,1)`, Insert
mode does not quit and inserts `q`. -/
theorem insert_mode_never_quits_witness :
    (handle_keypress sampleAbc ⟨KeyCode.Char 'q', true⟩).2 = false ∧
      (handle_keypress sampleAbc ⟨KeyCode.Char 'q', true⟩).1 = sampleAbc.insert_char 'q' :=
  insert_mode_never_quits sampleAbc ⟨KeyCode.Char 'q', true⟩ rfl

/-- C10: in Normal mode, Ctrl+`q` makes `handle_keypress` return the quit
signal with the buffer, cursor, and mode untouched. -/
theorem ctrl_q_quits_in_normal_mode (e : Editor) (hm : e.mode = Mode.Normal) :
    handle_keypress e ⟨KeyCode.Char 'q', true⟩ = (e, true) := by
  obtain ⟨mo, content, x, y⟩ := e
  replace hm : mo = Mode.Normal := hm
  subst hm
  rfl

/-- Witness for C10: Ctrl+`q` on buffer `["ab"]`, cursor `(0,1)`, Normal
mode returns the quit signal with the state unchanged. -/
theorem ctrl_q_quits_in_normal_mode_witness :
    handle_keypress sampleNormal ⟨KeyCode.Char 'q', true⟩ = (sampleNormal, true) :=
  ctrl_q_quits_in_normal_mode sampleNormal rfl

end TextEditor
